import Mathlib

/-
Verification development for the global-ext-parsers JavaScript tagger.

The embedding models src/js-parser.js. The external ECMAScript parser
(esprima) is out of scope per the specification; its output trees are
modelled as concrete values of the Node type below, and the two parse
attempts made by parseJS are modelled as oracle parameters of type
Except SynError Node. Everything downstream of parsing - the AST
decoration (parent links), the classifier determineTagType, the ancestor
lookup, the literal scanner tagInfoFromLiteral, the tag emitter tagAST,
and the entry point tagJavaScript - is translated from the source.

Decoration in the source attaches parentNode / parentProp links to every
sub-object (array containers included) and clones a node that already
carries a link, so the decorated structure is a proper tree in which every
occurrence knows its chain of containers. The model therefore represents a
decorated occurrence as a pair of the node and its container chain: entry
k of the chain is the k-th container going up (a node container carries the
full parent node and the property by which the lower object is attached to
it; an array container carries the index string).
-/

namespace GlobalExt

/-- Source location as produced by the external parser with loc enabled:
1-based line, 0-based column. -/
structure Loc where
  line : Nat
  column : Nat
deriving Repr, DecidableEq

mutual
/-- One tree node: type tag, location, and the node-valued or
array-of-node-valued properties in object insertion order. The name field
is meaningful for Identifier nodes, the value field for Literal nodes (and
for TemplateElement it holds the raw text), the shorthand flag for Property
nodes. Non-node attributes of the original objects (operator, kind,
computed, ...) are not consulted by any translated operation except
shorthand and are omitted. -/
inductive Node where
  | mk (ty : String) (loc : Loc) (name : String) (value : String)
       (shorthand : Bool) (props : Props)

/-- Property list of a node: each entry is a property name, whether the
property holds an array, and the child nodes (a single-node property holds
exactly one). Order models JavaScript object insertion order, which drives
the traversal order of subAstNodeProps. -/
inductive Props where
  | nil
  | cons (pname : String) (isArr : Bool) (kids : Kids) (rest : Props)

/-- A list of child nodes. -/
inductive Kids where
  | nil
  | cons (k : Node) (rest : Kids)
end

/-- One step of the upward container chain of a decorated object:
either a node container together with the property through which the
lower object is attached to it, or an array container with the index
string (decoration gives array elements their index as parentProp). -/
inductive CEntry where
  | nodeC (n : Node) (prop : String)
  | arrC (idx : String)

/-- The container chain of a decorated object, innermost container first.
The last entry of a chain produced by traversal is the root node. -/
abbrev Chain := List CEntry

def Node.ty : Node → String
  | .mk t _ _ _ _ _ => t

def Node.loc : Node → Loc
  | .mk _ l _ _ _ _ => l

def Node.name : Node → String
  | .mk _ _ nm _ _ _ => nm

def Node.value : Node → String
  | .mk _ _ _ v _ _ => v

def Node.shorthand : Node → Bool
  | .mk _ _ _ _ sh _ => sh

def Node.props : Node → Props
  | .mk _ _ _ _ _ ps => ps

mutual
/-- Constructor count of a node; used as a fuel bound for tree recursions
(every recursion path below descends one constructor per call, so this
bound is never reached). -/
def nodeSize : Node → Nat
  | .mk _ _ _ _ _ ps => propsSize ps + 1

def propsSize : Props → Nat
  | .nil => 1
  | .cons _ _ ks r => kidsSize ks + propsSize r + 1

def kidsSize : Kids → Nat
  | .nil => 1
  | .cons k r => nodeSize k + kidsSize r + 1
end

def kidsToList : Kids → List Node
  | .nil => []
  | .cons k r => k :: kidsToList r

/-- Look up a property entry by name (first match, as with JavaScript
object properties, whose names are unique anyway). -/
def findProp : Props → String → Option (Bool × Kids)
  | .nil, _ => none
  | .cons pname isArr ks rest, p =>
    if pname = p then some (isArr, ks) else findProp rest p

/-- Read a single-node property, as in parentNode.local. Returns none when
the property is absent or is an array (the translated call sites guard or
note the unreachable cases). -/
def getOne (n : Node) (p : String) : Option Node :=
  match findProp n.props p with
  | some (false, .cons k .nil) => some k
  | _ => none

/-- Read an array-of-nodes property, as in callExpression.arguments. -/
def getArr (n : Node) (p : String) : Option (List Node) :=
  match findProp n.props p with
  | some (true, ks) => some (kidsToList ks)
  | _ => none

mutual
/-- Pre-order enumeration of the descendants filtered to Identifier nodes,
paired with their container chains; translates the decorated findDescendants
generator composed with the decoration pass. The property named errors is
skipped, as subAstNodeProps never yields it. Fuel is an upper bound on the
call depth, see nodeSize. -/
def collectNodeF (fuel : Nat) (n : Node) (chain : Chain) : List (Node × Chain) :=
  match fuel with
  | 0 => []
  | fuel + 1 => collectPropsF fuel n n.props chain

def collectPropsF (fuel : Nat) (parent : Node) (ps : Props) (chain : Chain) :
    List (Node × Chain) :=
  match fuel with
  | 0 => []
  | fuel + 1 =>
    match ps with
    | .nil => []
    | .cons pname isArr kids rest =>
        (if pname = "errors" then []
         else if isArr then collectKidsArrF fuel parent pname 0 kids chain
         else collectKidsOneF fuel parent pname kids chain)
        ++ collectPropsF fuel parent rest chain

def collectKidsOneF (fuel : Nat) (parent : Node) (pname : String) (ks : Kids)
    (chain : Chain) : List (Node × Chain) :=
  match fuel with
  | 0 => []
  | fuel + 1 =>
    match ks with
    | .nil => []
    | .cons k rest =>
        (let kc : Chain := .nodeC parent pname :: chain
         (if k.ty = "Identifier" then [(k, kc)] else []) ++ collectNodeF fuel k kc)
        ++ collectKidsOneF fuel parent pname rest chain

def collectKidsArrF (fuel : Nat) (parent : Node) (pname : String) (i : Nat)
    (ks : Kids) (chain : Chain) : List (Node × Chain) :=
  match fuel with
  | 0 => []
  | fuel + 1 =>
    match ks with
    | .nil => []
    | .cons k rest =>
        (let kc : Chain := .arrC (toString i) :: .nodeC parent pname :: chain
         (if k.ty = "Identifier" then [(k, kc)] else []) ++ collectNodeF fuel k kc)
        ++ collectKidsArrF fuel parent pname (i + 1) rest chain
end

/-- The Identifier occurrences of a decorated tree in document order, as
iterated by the emitter with descendants of kind Identifier. -/
def identifiersOf (root : Node) : List (Node × Chain) :=
  collectNodeF (nodeSize root + 1) root []

mutual
/-- Structural node equality. It models the object identity comparison of
parentNode.key and parentNode.value in the source: after decoration every
occurrence is a distinct object, and two distinct tokens of a parser tree
always carry distinct source locations, so structural equality including
locations coincides with object identity on the reachable comparisons. -/
def nodeBEqF (fuel : Nat) (a b : Node) : Bool :=
  match fuel with
  | 0 => false
  | fuel + 1 =>
    match a, b with
    | .mk t1 l1 n1 v1 s1 p1, .mk t2 l2 n2 v2 s2 p2 =>
      t1 = t2 && l1 = l2 && n1 = n2 && v1 = v2 && s1 = s2 && propsBEqF fuel p1 p2

def propsBEqF (fuel : Nat) (a b : Props) : Bool :=
  match fuel with
  | 0 => false
  | fuel + 1 =>
    match a, b with
    | .nil, .nil => true
    | .cons n1 i1 k1 r1, .cons n2 i2 k2 r2 =>
      n1 = n2 && i1 = i2 && kidsBEqF fuel k1 k2 && propsBEqF fuel r1 r2
    | _, _ => false

def kidsBEqF (fuel : Nat) (a b : Kids) : Bool :=
  match fuel with
  | 0 => false
  | fuel + 1 =>
    match a, b with
    | .nil, .nil => true
    | .cons k1 r1, .cons k2 r2 => nodeBEqF fuel k1 k2 && kidsBEqF fuel r1 r2
    | _, _ => false
end

def nodeBEq (a b : Node) : Bool := nodeBEqF (nodeSize a + 1) a b

def optNodeBEq : Option Node → Option Node → Bool
  | none, none => true
  | some a, some b => nodeBEq a b
  | _, _ => false

/-- The four possible outcomes of determineTagType: the string constants
DEF, REF, NOTHING, and the undefined fall-through (Unknown). -/
inductive Verdict where
  | D | R | N | U
deriving Repr, DecidableEq

def vdStr : Verdict → String
  | .D => "D"
  | .R => "R"
  | .N => "N"
  | .U => "U"

/-- The getNonArrayParent helper of determineTagType: walk past array
containers to the first node container and the property recorded there. -/
def firstNodeParent : Chain → Option (Node × String)
  | [] => none
  | .nodeC n p :: _ => some (n, p)
  | .arrC _ :: rest => firstNodeParent rest

/-- The scanning loop shared by the ancestor lookup: first non-array entry
whose node type matches, together with the property stored at that entry. -/
def ancScan : Chain → String → Option (Node × String)
  | [], _ => none
  | .arrC _ :: rest, ty => ancScan rest ty
  | .nodeC n p :: rest, ty => if n.ty = ty then some (n, p) else ancScan rest ty

/-- Translation of astGetAncestorNode. The loop state is initialised from
the parent link of this.parentNode, i.e. from the second chain entry, so
the scan starts one container above the immediate one. The empty chain
stands for a root object, on which the source would fail to destructure;
no traversal occurrence has an empty chain. -/
def astGetAncestorNode (chain : Chain) (ty : String) : Option (Node × String) :=
  match chain with
  | [] => none
  | _ :: rest => ancScan rest ty

/-- Modelled from the spec: nearestAncestorOfKind as worded in the
specification - the nearest strict ancestor whose kind matches, skipping
sequence wrappers, plus the property name through which it was reached,
starting from the immediate container. Kept for comparison with the
translated astGetAncestorNode. -/
def nearestAncestorOfKind : Chain → String → Option (Node × String)
  | [], _ => none
  | .arrC _ :: rest, ty => nearestAncestorOfKind rest ty
  | .nodeC n p :: rest, ty =>
    if n.ty = ty then some (n, p) else nearestAncestorOfKind rest ty

/-- Translation of isForStatementDefinedVariable: the for-statement
init slot holds a variable declaration one of whose declarator ids is an
Identifier with the given name. Absent properties yield false where the
source would fail on malformed input; parser trees always carry them. -/
def isForStatementDefinedVariable (forNode : Node) (nm : String) : Bool :=
  match getOne forNode "init" with
  | none => false
  | some init =>
    init.ty = "VariableDeclaration" &&
    (match getArr init "declarations" with
     | none => false
     | some ds =>
       (ds.filter (fun d => d.ty = "VariableDeclarator")).any (fun d =>
         match getOne d "id" with
         | none => false
         | some idn => idn.ty = "Identifier" && idn.name = nm))

/-- Translation of isForStatementInternalId. -/
def isForStatementInternalId (chain : Chain) (nm : String) : Bool :=
  match astGetAncestorNode chain "ForStatement" with
  | none => false
  | some (anc, p) => (p = "test" || p = "update") && isForStatementDefinedVariable anc nm

/-- The switch keys of the unconditional Definition cases. -/
def defKeys : List String :=
  ["ClassDeclaration.id", "ConditionalExpression.consequent",
   "ExportDefaultDeclaration.declaration", "FunctionDeclaration.id",
   "FunctionExpression.id", "ImportNamespaceSpecifier.local",
   "LabeledStatement.label"]

/-- The switch keys of the loop-scope operand cases. -/
def loopOperandKeys : List String :=
  ["BinaryExpression.left", "BinaryExpression.right",
   "UpdateExpression.argument", "UnaryExpression.argument"]

/-- The switch keys of the unconditional Reference cases. -/
def refKeys : List String :=
  ["ArrayExpression.elements", "ArrowFunctionExpression.body",
   "AssignmentExpression.right", "BreakStatement.label",
   "CallExpression.arguments", "CallExpression.callee",
   "ClassDeclaration.superClass", "ConditionalExpression.alternate",
   "ConditionalExpression.test", "ContinueStatement.label",
   "DoWhileStatement.test", "ForInStatement.right", "ForOfStatement.right",
   "ForStatement.test", "IfStatement.test", "ImportDefaultSpecifier.local",
   "ImportSpecifier.imported", "LogicalExpression.left",
   "LogicalExpression.right", "MemberExpression.object",
   "MemberExpression.property", "NewExpression.arguments",
   "NewExpression.callee", "Property.value", "ReturnStatement.argument",
   "SequenceExpression.expressions", "SpreadElement.argument",
   "SwitchCase.test", "SwitchStatement.discriminant",
   "TaggedTemplateExpression.tag", "TemplateLiteral.expressions",
   "ThrowStatement.argument", "VariableDeclarator.init",
   "WhileStatement.test", "YieldExpression.argument",
   "ExpressionStatement.expression"]

/-- The switch keys of the unconditional Ignore cases. -/
def ignoreKeys : List String :=
  ["ArrowFunctionExpression.params", "AssignmentExpression.left",
   "AssignmentPattern.left", "CatchClause.param", "ClassExpression.id",
   "ExportSpecifier.local", "ForInStatement.left", "ForOfStatement.left",
   "FunctionExpression.params", "RestElement.argument",
   "FunctionDeclaration.params"]

/-- Translation of determineTagType. The dispatch key is the template
string of parent type and parent property, as in the source switch. A
non-Identifier node yields NOTHING at the top. The conditional cases read
sibling properties of the non-array parent; on parser trees those
properties are always present (the none branches mirror positions where
the source would fail and are unreachable from traversal occurrences).
The fall-through at the bottom is the undefined return, i.e. Unknown. -/
def determineTagType (idNode : Node) (chain : Chain) : Verdict :=
  if idNode.ty ≠ "Identifier" then .N
  else
    match firstNodeParent chain with
    | none => .U
    | some (pn, pp) =>
      let key := pn.ty ++ "." ++ pp
      if defKeys.contains key then .D
      else if key = "ExportSpecifier.exported" then
        match getOne pn "local" with
        | some l => if l.name = idNode.name then .N else .D
        | none => .D
      else if key = "MethodDefinition.key" then
        if idNode.name = "constructor" then .N else .D
      else if key = "ImportSpecifier.local" then
        match getOne pn "imported" with
        | some im => if im.name ≠ idNode.name then .D else .R
        | none => .D
      else if key = "Property.key" then
        if pn.shorthand then .N
        else
          match astGetAncestorNode chain "VariableDeclarator" with
          | some (_, "init") =>
            if !optNodeBEq (getOne pn "key") (getOne pn "value") then .D else .R
          | some (_, "id") =>
            if optNodeBEq (getOne pn "key") (getOne pn "value") then .D else .R
          | _ => .R
      else if key = "VariableDeclarator.id" then
        match astGetAncestorNode chain "ForInStatement" with
        | some (_, "left") => .N
        | _ =>
          match astGetAncestorNode chain "ForStatement" with
          | some (_, "init") => .N
          | _ => .D
      else if loopOperandKeys.contains key then
        if isForStatementInternalId chain idNode.name then .N else .R
      else if key = "ForStatement.update" then
        if isForStatementDefinedVariable pn idNode.name then .N else .R
      else if key = "ArrayPattern.elements" then .D
      else if refKeys.contains key then .R
      else if ignoreKeys.contains key then .N
      else .U

/-
The literal scanner. The source matches the literal text against the
global regular expressions over word characters and hyphen, with word
boundaries, optionally preceded by a dot or hash class. The scanner below
implements that matching semantics directly: at each position an attempt
requires the leading boundary, takes the maximal run of class characters,
and backtracks the run until the trailing boundary holds; scanning resumes
at the end of the emitted match. Fuel bounds the scan by the text length.
-/

/-- ASCII word character of the regular expressions, letter, digit or
underscore. -/
def isWordChar (c : Char) : Bool :=
  c.isAlpha || c.isDigit || c = '_'

/-- Character class of the matched runs: word characters and hyphen. -/
def isClsChar (c : Char) : Bool := isWordChar c || c = '-'

/-- Word-ness of an optional character; out of range counts as non-word. -/
def wordO : Option Char → Bool
  | none => false
  | some c => isWordChar c

/-- Word boundary between two positions. -/
def boundaryB (a b : Option Char) : Bool := wordO a != wordO b

/-- Backtrack a greedy run (given reversed) until a trailing word boundary
holds; returns the reversed kept run and the characters handed back to the
remaining input. -/
def shrinkRun : List Char → List Char → Option (List Char × List Char)
  | [], _ => none
  | l :: rs, after =>
    if isWordChar l != wordO after.head? then some (l :: rs, after)
    else shrinkRun rs (l :: after)

/-- One match attempt of the word pattern at the current position; returns
the match, the new previous character and the remaining input. -/
def attemptWord (prev : Option Char) (c : Char) (tl : List Char) :
    Option (List Char × Option Char × List Char) :=
  if isClsChar c && boundaryB prev (some c) then
    let run := (c :: tl).takeWhile isClsChar
    let after := (c :: tl).dropWhile isClsChar
    match shrinkRun run.reverse after with
    | some (l :: rs, rest) => some ((l :: rs).reverse, some l, rest)
    | _ => none
  else none

/-- One match attempt of the selector pattern (leading dot or hash, then a
word boundary, then the run) at the current position. -/
def attemptSelector (_prev : Option Char) (c : Char) (tl : List Char) :
    Option (List Char × Option Char × List Char) :=
  if c = '.' || c = '#' then
    match tl with
    | [] => none
    | d :: tl2 =>
      if isClsChar d && isWordChar d then
        let run := (d :: tl2).takeWhile isClsChar
        let after := (d :: tl2).dropWhile isClsChar
        match shrinkRun run.reverse after with
        | some (l :: rs, rest) => some (c :: (l :: rs).reverse, some l, rest)
        | _ => none
      else none
  else none

/-- Global scan: attempt at each position, resume after each match. -/
def scanGo (fuel : Nat) (isSel : Bool) (prev : Option Char) (s : List Char) :
    List (List Char) :=
  match fuel with
  | 0 => []
  | fuel + 1 =>
    match s with
    | [] => []
    | c :: tl =>
      match (if isSel then attemptSelector prev c tl else attemptWord prev c tl) with
      | some (m, prev2, rest) => m :: scanGo fuel isSel prev2 rest
      | none => scanGo fuel isSel (some c) tl

/-- All matches of the word pattern, as value.match with the word regular
expression returns them. -/
def scanWord (s : List Char) : List (List Char) :=
  scanGo (s.length + 1) false none s

/-- All matches of the selector pattern. -/
def scanSelector (s : List Char) : List (List Char) :=
  scanGo (s.length + 1) true none s

/-- Split on newline characters, as value.split of the source. -/
def splitNl : List Char → List (List Char)
  | [] => [[]]
  | c :: tl =>
    if c = '\n' then [] :: splitNl tl
    else
      match splitNl tl with
      | h :: t => (c :: h) :: t
      | [] => [[c]]

/-- List prefix test. -/
def isPre : List Char → List Char → Bool
  | [], _ => true
  | _ :: _, [] => false
  | a :: as2, b :: bs => a = b && isPre as2 bs

/-- First index of a sublist, as String.indexOf of the source. -/
def indexOfSub (hay needle : List Char) : Option Nat :=
  if isPre needle hay then some 0
  else
    match hay with
    | [] => none
    | _ :: t => (indexOfSub t needle).map (· + 1)

/-- Find the first split line containing the token and the offset in it,
as the indexOf loop of tagInfoFromLiteral. -/
def findInLines (lines : List (List Char)) (needle : List Char) (idx : Nat) :
    Option (Nat × Nat) :=
  match lines with
  | [] => none
  | l :: rest =>
    match indexOfSub l needle with
    | some k => some (idx, k)
    | none => findInLines rest needle (idx + 1)

/-- Prefix test on strings, as String.startsWith in the source. -/
def strStartsWith (s p : String) : Bool := isPre p.toList s.toList

/-- The exceptions thrown by the tagging pipeline; every one models a
JavaScript TypeError. -/
inductive JSError where
  | typeError (msg : String)
deriving Repr, DecidableEq

/-- The fields of the tag objects before the emitter adds path, source
line and offsets: kind string, symbol name, 1-based line, 0-based column. -/
structure TagInfo where
  type : String
  name : String
  line : Nat
  column : Nat
deriving Repr, DecidableEq

/-- Build the tag records of the matches of one literal, as the yield loop
of tagInfoFromLiteral: for each match locate its first occurrence among
the split lines, offset by the literal start and the quote and prefix
characters on the first line. A token that cannot be located would make
the source fail on an undefined line; that branch is unreachable because
every match is a newline-free substring of the text. -/
def literalTagsAux (lines : List (List Char)) (line col preLen : Nat) :
    List (List Char) → Except JSError (List TagInfo)
  | [] => .ok []
  | id :: rest =>
    match findInLines lines id 0 with
    | none => .error (.typeError "Cannot read property indexOf of undefined")
    | some (nl, nc) =>
      match literalTagsAux lines line col preLen rest with
      | .error e => .error e
      | .ok r =>
        .ok ({ type := "R"
             , name := String.mk (id.drop preLen)
             , line := line + nl
             , column := if nl = 0 then 1 + col + preLen + nc else preLen + nc } :: r)

/-- The destructuring switch at the top of tagInfoFromLiteral: the text and
start location of a Literal, or of the first quasi of a TemplateLiteral.
Any other node kind leaves the switch without a value and the source fails
destructuring undefined; the caller guards the kind. -/
def litHead (lit : Node) : Option (String × Nat × Nat) :=
  if lit.ty = "Literal" then some (lit.value, lit.loc.line, lit.loc.column)
  else if lit.ty = "TemplateLiteral" then
    match getArr lit "quasis" with
    | some (q :: _) => some (q.value, q.loc.line, q.loc.column)
    | _ => none
  else none

/-- Translation of tagInfoFromLiteral. -/
def tagInfoFromLiteral (lit : Node) (isSelector : Bool) :
    Except JSError (List TagInfo) :=
  match litHead lit with
  | none => .error (.typeError "Cannot destructure undefined")
  | some (v, line, col) =>
    let ids := if isSelector then scanSelector v.toList else scanWord v.toList
    literalTagsAux (splitNl v.toList) line col (if isSelector then 1 else 0) ids

/-- The five DOM lookup names that trigger the literal scanner. -/
def selectorNames : List String :=
  ["querySelector", "querySelectorAll", "getElementById",
   "getElementsByClassName", "getElementsByName"]

/-- The check at the stopping object of the walk of the tags getter: when
it is a CallExpression, look at its first argument; reading the type of an
absent first argument is a TypeError, and so is indexing an absent
arguments property. A non-literal argument is silently skipped. -/
def selAtCall (nm : String) (cur : Node) : Except JSError (List TagInfo) :=
  if cur.ty = "CallExpression" then
    match getArr cur "arguments" with
    | none => .error (.typeError "Cannot read property 0 of undefined")
    | some [] => .error (.typeError "Cannot read property type of undefined")
    | some (sel :: _) =>
      if sel.ty = "Literal" ∨ sel.ty = "TemplateLiteral" then
        tagInfoFromLiteral sel (strStartsWith nm "querySelector")
      else .ok []
  else .ok []

/-- The walk of the tags getter from the member expression up to the
enclosing call: step through parentNode as long as the current object is a
MemberExpression. Stepping past the root leaves the loop condition reading
the type of undefined, a TypeError; an array container has undefined type,
which ends the loop and then fails the CallExpression test of selAtCall. -/
def selWalk (nm : String) (cur : Node) (chain : Chain) :
    Except JSError (List TagInfo) :=
  if cur.ty = "MemberExpression" then
    match chain with
    | .nodeC n _ :: rest => selWalk nm n rest
    | .arrC _ :: _ => .ok []
    | [] => .error (.typeError "Cannot read property type of undefined")
  else selAtCall nm cur

/-- The literal-scanner trigger of the tags getter: the identifier name is
one of the selector names and the immediate container (not looked through
arrays here) is a MemberExpression; then walk up to the call. On the empty
chain the source would read the type of an undefined parent when the name
matches; identifiers produced by traversal always have a container. -/
def selectorTags (nm : String) (chain : Chain) : Except JSError (List TagInfo) :=
  match chain with
  | .nodeC p _ :: rest =>
    if selectorNames.contains nm ∧ p.ty = "MemberExpression" then
      selWalk nm p rest
    else .ok []
  | .arrC _ :: _ => .ok []
  | [] =>
    if selectorNames.contains nm then
      .error (.typeError "Cannot read property type of undefined")
    else .ok []

/-- The tagInfo getter for the occurrence itself. -/
def ownTagInfo (n : Node) (vd : Verdict) : TagInfo :=
  { type := vdStr vd, name := n.name, line := n.loc.line, column := n.loc.column }

/-- Translation of the tags getter of one identifier occurrence: for
Definition and Reference yield the occurrence itself and fall through to
the trigger check; for NOTHING only the trigger check; for the undefined
verdict return before the trigger check. -/
def idTags (n : Node) (chain : Chain) : Except JSError (List TagInfo) :=
  match determineTagType n chain with
  | .D => (selectorTags n.name chain).map (ownTagInfo n .D :: ·)
  | .R => (selectorTags n.name chain).map (ownTagInfo n .R :: ·)
  | .N => selectorTags n.name chain
  | .U => .ok []

/-- Modelled from the spec: the emitter step as the specification words it,
running the literal-scanner trigger check regardless of the classification
outcome, Unknown included. Kept for comparison with the translated idTags. -/
def specIdTags (n : Node) (chain : Chain) : Except JSError (List TagInfo) :=
  match determineTagType n chain with
  | .D => (selectorTags n.name chain).map (ownTagInfo n .D :: ·)
  | .R => (selectorTags n.name chain).map (ownTagInfo n .R :: ·)
  | .N => selectorTags n.name chain
  | .U => selectorTags n.name chain

/-- Concatenate the tag records of all identifier occurrences in order; the
first exception aborts the emitter, as the rethrow in tagAST does. -/
def streamOf : List (Node × Chain) → Except JSError (List TagInfo)
  | [] => .ok []
  | (n, ch) :: rest =>
    match idTags n ch with
    | .error e => .error e
    | .ok l =>
      match streamOf rest with
      | .error e => .error e
      | .ok r => .ok (l ++ r)

/-- A finished tag as pushed by tagAST: path and source line added, the
line shifted by the line offset, the column shifted to 1-based plus the
column offset. The source line is read at the unshifted line, i.e. within
the given fragment. -/
structure Tag where
  type : String
  name : String
  path : String
  line : Nat
  column : Nat
  ref : Option String
deriving Repr, DecidableEq

def tagOfInfo (src path : String) (lo co : Nat) (ti : TagInfo) : Tag :=
  { type := ti.type
  , name := ti.name
  , path := path
  , line := ti.line + lo
  , column := ti.column + 1 + co
  , ref := ((splitNl src.toList).get? (ti.line - 1)).map String.mk }

/-- Translation of tagAST on a decorated tree: walk the identifiers in
document order, collect their tag records, finish each with path, source
line and offsets. The unknown-identifier branch only prints a diagnostic
to standard error and does not affect the stream. -/
def tagAST (root : Node) (src path : String) (lo co : Nat) :
    Except JSError (List Tag) :=
  (streamOf (identifiersOf root)).map (List.map (tagOfInfo src path lo co))

/-- A parse failure of the external parser: line number and description as
read off the thrown error in tagJavaScript. -/
structure SynError where
  lineNumber : Nat
  description : String
deriving Repr, DecidableEq

/-- The observable outcome of a tagJavaScript call: a returned tag stream,
an exception propagated to the caller, or a process termination with an
exit code. -/
inductive TagResult where
  | tags (ts : List Tag)
  | thrown (e : JSError)
  | exited (code : Nat)
deriving Repr, DecidableEq

def isThrown : TagResult → Bool
  | .thrown _ => true
  | _ => false

/-- Translation of parseJS over the two parse-attempt oracles: the result
of the default-grammar attempt, and of the module-mode retry. The Boolean
records whether decorateAST ran: the source calls it inside the try block
only, so the tree of a successful retry is returned undecorated. -/
def parseJS (pd pm : Except SynError Node) : Except SynError (Node × Bool) :=
  match pd with
  | .ok a => .ok (a, true)
  | .error _ =>
    match pm with
    | .ok a => .ok (a, false)
    | .error e => .error e

/-- The stage of tagJavaScript after the argument guard: parse, then tag.
A parse failure of both attempts reaches the catch block, which prints the
parse-error diagnostic and terminates the process with exit code 10. A tree
from the retry lacks the decoration, so tagAST immediately fails calling
the absent descendants method, a TypeError thrown to the caller. -/
def tagAfterParse (pd pm : Except SynError Node) (src path : String)
    (lo co : Nat) : TagResult :=
  match parseJS pd pm with
  | .error _ => .exited 10
  | .ok (ast, true) =>
    match tagAST ast src path lo co with
    | .ok ts => .tags ts
    | .error e => .thrown e
  | .ok (_, false) => .thrown (.typeError "ast.descendants is not a function")

/-- Translation of tagJavaScript: guard against empty source or empty
path with a TypeError, then parse and tag. -/
def tagJavaScript (pd pm : Except SynError Node) (src path : String)
    (lo co : Nat) : TagResult :=
  if src = "" ∨ path = "" then
    .thrown (.typeError "Source code and its path must be given.")
  else tagAfterParse pd pm src path lo co

/-- The pure stopping point of the member-expression walk, used to state
hypotheses about trees containing a selector call: the first object on the
way up that is not a MemberExpression, or none when the walk leaves the
chain or meets an array container. -/
def walkStop (cur : Node) (chain : Chain) : Option Node :=
  if cur.ty = "MemberExpression" then
    match chain with
    | .nodeC n _ :: rest => walkStop n rest
    | _ => none
  else some cur

/-
Concrete trees. The external parser is excluded from the system under
specification, so its output for the scenario sources is modelled as the
concrete SpiderMonkey-Parser-API trees below (the shape the source code
documents and consumes), with the start locations of the tokens in the
scenario strings. Property order follows the field order of the parser
objects, which drives traversal order.
-/

def identN (nm : String) (line col : Nat) : Node :=
  .mk "Identifier" ⟨line, col⟩ nm "" false .nil

def litN (v : String) (line col : Nat) : Node :=
  .mk "Literal" ⟨line, col⟩ "" v false .nil

def nodeN (ty : String) (line col : Nat) (ps : Props) : Node :=
  .mk ty ⟨line, col⟩ "" "" false ps

def ksOf : List Node → Kids
  | [] => .nil
  | k :: rest => .cons k (ksOf rest)

def pOne (nm : String) (k : Node) (rest : Props) : Props :=
  .cons nm false (.cons k .nil) rest

def pArr (nm : String) (ks : List Node) (rest : Props) : Props :=
  .cons nm true (ksOf ks) rest

/-- Scenario A source. -/
def srcA : String := "const foo = require(\"./foo\");"

def fooIdA : Node := identN "foo" 1 6

def requireIdA : Node := identN "require" 1 12

def callA : Node :=
  nodeN "CallExpression" 1 12
    (pOne "callee" requireIdA (pArr "arguments" [litN "./foo" 1 20] .nil))

def declrA : Node :=
  nodeN "VariableDeclarator" 1 6 (pOne "id" fooIdA (pOne "init" callA .nil))

def vdeclA : Node :=
  nodeN "VariableDeclaration" 1 0 (pArr "declarations" [declrA] .nil)

/-- Modelled parser tree of scenario A. -/
def treeA : Node := nodeN "Program" 1 0 (pArr "body" [vdeclA] .nil)

/-- The container chain of the foo occurrence of scenario A. -/
def fooChainA : Chain :=
  [.nodeC declrA "id", .arrC "0", .nodeC vdeclA "declarations",
   .arrC "0", .nodeC treeA "body"]

def fooTagA : Tag :=
  { type := "D", name := "foo", path := "foo.js", line := 1, column := 7,
    ref := some srcA }

def requireTagA : Tag :=
  { type := "R", name := "require", path := "foo.js", line := 1, column := 13,
    ref := some srcA }

/-- Scenario D source. -/
def srcD : String := "for (let i = 0; i < 10; i++) \x7b arr[i]; \x7d"

def declrD : Node :=
  nodeN "VariableDeclarator" 1 9
    (pOne "id" (identN "i" 1 9) (pOne "init" (litN "0" 1 13) .nil))

def vdeclD : Node :=
  nodeN "VariableDeclaration" 1 5 (pArr "declarations" [declrD] .nil)

def binD : Node :=
  nodeN "BinaryExpression" 1 16
    (pOne "left" (identN "i" 1 16) (pOne "right" (litN "10" 1 20) .nil))

def updD : Node :=
  nodeN "UpdateExpression" 1 24 (pOne "argument" (identN "i" 1 24) .nil)

def memD : Node :=
  nodeN "MemberExpression" 1 31
    (pOne "object" (identN "arr" 1 31) (pOne "property" (identN "i" 1 35) .nil))

def blockD : Node :=
  nodeN "BlockStatement" 1 29
    (pArr "body" [nodeN "ExpressionStatement" 1 31 (pOne "expression" memD .nil)] .nil)

def forD : Node :=
  nodeN "ForStatement" 1 0
    (pOne "init" vdeclD (pOne "test" binD (pOne "update" updD (pOne "body" blockD .nil))))

/-- Modelled parser tree of scenario D. -/
def treeD : Node := nodeN "Program" 1 0 (pArr "body" [forD] .nil)

def arrTagD : Tag :=
  { type := "R", name := "arr", path := "loop.js", line := 1, column := 32,
    ref := some srcD }

def iTagD : Tag :=
  { type := "R", name := "i", path := "loop.js", line := 1, column := 36,
    ref := some srcD }

/-- Scenario E source. -/
def srcE : String := "document.querySelector(\"#login-button\").focus();"

def qsIdE : Node := identN "querySelector" 1 9

def innerMemE : Node :=
  nodeN "MemberExpression" 1 0
    (pOne "object" (identN "document" 1 0) (pOne "property" qsIdE .nil))

def innerCallE : Node :=
  nodeN "CallExpression" 1 0
    (pOne "callee" innerMemE (pArr "arguments" [litN "#login-button" 1 23] .nil))

def outerMemE : Node :=
  nodeN "MemberExpression" 1 0
    (pOne "object" innerCallE (pOne "property" (identN "focus" 1 40) .nil))

def outerCallE : Node :=
  nodeN "CallExpression" 1 0 (pOne "callee" outerMemE (pArr "arguments" [] .nil))

def exprStmtE : Node :=
  nodeN "ExpressionStatement" 1 0 (pOne "expression" outerCallE .nil)

/-- Modelled parser tree of scenario E. -/
def treeE : Node := nodeN "Program" 1 0 (pArr "body" [exprStmtE] .nil)

/-- The container chain of the querySelector occurrence of scenario E. -/
def qsChainE : Chain :=
  [.nodeC innerMemE "property", .nodeC innerCallE "callee",
   .nodeC outerMemE "object", .nodeC outerCallE "callee",
   .nodeC exprStmtE "expression", .arrC "0", .nodeC treeE "body"]

def documentTagE : Tag :=
  { type := "R", name := "document", path := "sel.js", line := 1, column := 1,
    ref := some srcE }

def qsTagE : Tag :=
  { type := "R", name := "querySelector", path := "sel.js", line := 1,
    column := 10, ref := some srcE }

def loginTagE : Tag :=
  { type := "R", name := "login-button", path := "sel.js", line := 1,
    column := 23 + 0 + 1 + 1 + 1, ref := some srcE }

def focusTagE : Tag :=
  { type := "R", name := "focus", path := "sel.js", line := 1, column := 41,
    ref := some srcE }

/-- Empty-argument selector-call source. -/
def srcX : String := "x.getElementById();"

def geIdX : Node := identN "getElementById" 1 2

def memX : Node :=
  nodeN "MemberExpression" 1 0
    (pOne "object" (identN "x" 1 0) (pOne "property" geIdX .nil))

def callX : Node :=
  nodeN "CallExpression" 1 0 (pOne "callee" memX (pArr "arguments" [] .nil))

def exprStmtX : Node :=
  nodeN "ExpressionStatement" 1 0 (pOne "expression" callX .nil)

/-- Modelled parser tree of the empty-argument selector call. -/
def treeX : Node := nodeN "Program" 1 0 (pArr "body" [exprStmtX] .nil)

/-- The chain above the member expression of the getElementById occurrence. -/
def geRestX : Chain :=
  [.nodeC callX "callee", .nodeC exprStmtX "expression",
   .arrC "0", .nodeC treeX "body"]

/-- The container chain of the getElementById occurrence of treeX. -/
def geChainX : Chain := .nodeC memX "property" :: geRestX

/-- A parse-failure oracle value used by concrete evaluations. -/
def pdFail : Except SynError Node := .error ⟨1, "Unexpected token"⟩

/-- The tail of the chain of the foo occurrence above its immediate
container. -/
def fooRestA : Chain :=
  [.arrC "0", .nodeC vdeclA "declarations", .arrC "0", .nodeC treeA "body"]

/-- A decorated occurrence outside the parser grammar: an identifier named
querySelector attached to a MemberExpression through a property the
classifier table does not know, inside a call whose first argument is a
selector literal. The classifier answer is the undefined fall-through. -/
def wIdent : Node := identN "querySelector" 1 0

def wMem : Node := nodeN "MemberExpression" 1 0 (pOne "expr" wIdent .nil)

def wCall : Node :=
  nodeN "CallExpression" 1 0 (pOne "callee" wMem (pArr "arguments" [litN "#a" 1 8] .nil))

def wChain : Chain := [.nodeC wMem "expr", .nodeC wCall "callee"]

/-
Supporting lemmas.
-/

theorem literalTagsAux_all_R (lines : List (List Char)) (line col preLen : Nat) :
    ∀ (ids : List (List Char)) (l : List TagInfo),
      literalTagsAux lines line col preLen ids = .ok l → ∀ ti ∈ l, ti.type = "R" := by
  intro ids
  induction ids with
  | nil =>
    intro l h ti hti
    unfold literalTagsAux at h
    cases h
    simp at hti
  | cons id rest ih =>
    intro l h ti hti
    unfold literalTagsAux at h
    cases hf : findInLines lines id 0 with
    | none => rw [hf] at h; simp at h
    | some pr =>
      obtain ⟨nl, nc⟩ := pr
      rw [hf] at h
      cases hr : literalTagsAux lines line col preLen rest with
      | error e => rw [hr] at h; simp at h
      | ok r =>
        rw [hr] at h
        cases h
        rcases List.mem_cons.mp hti with h1 | h2
        · subst h1; rfl
        · exact ih r hr ti h2

theorem tagInfoFromLiteral_all_R (lit : Node) (isSel : Bool) (l : List TagInfo) :
    tagInfoFromLiteral lit isSel = .ok l → ∀ ti ∈ l, ti.type = "R" := by
  intro h
  unfold tagInfoFromLiteral at h
  cases hl : litHead lit with
  | none => rw [hl] at h; simp at h
  | some tup =>
    obtain ⟨v, line, col⟩ := tup
    rw [hl] at h
    exact literalTagsAux_all_R _ _ _ _ _ _ h

theorem selAtCall_all_R (nm : String) (cur : Node) (l : List TagInfo) :
    selAtCall nm cur = .ok l → ∀ ti ∈ l, ti.type = "R" := by
  intro h ti hti
  unfold selAtCall at h
  split at h
  · split at h
    · simp at h
    · simp at h
    · split at h
      · exact tagInfoFromLiteral_all_R _ _ _ h ti hti
      · cases h; simp at hti
  · cases h; simp at hti

theorem selWalk_all_R :
    ∀ (chain : Chain) (nm : String) (cur : Node) (l : List TagInfo),
      selWalk nm cur chain = .ok l → ∀ ti ∈ l, ti.type = "R" := by
  intro chain
  induction chain with
  | nil =>
    intro nm cur l h ti hti
    unfold selWalk at h
    split at h
    · simp at h
    · exact selAtCall_all_R nm cur l h ti hti
  | cons entry rest ih =>
    intro nm cur l h ti hti
    unfold selWalk at h
    split at h
    · cases entry with
      | nodeC n p => exact ih nm n l h ti hti
      | arrC idx => cases h; simp at hti
    · exact selAtCall_all_R nm cur l h ti hti

theorem selectorTags_all_R (nm : String) (chain : Chain) (l : List TagInfo) :
    selectorTags nm chain = .ok l → ∀ ti ∈ l, ti.type = "R" := by
  intro h ti hti
  unfold selectorTags at h
  split at h
  · split at h
    · rename_i p q rest h1
      exact selWalk_all_R _ nm p l h ti hti
    · cases h; simp at hti
  · cases h; simp at hti
  · split at h
    · simp at h
    · cases h; simp at hti

theorem idTags_all_DR (n : Node) (ch : Chain) (l : List TagInfo) :
    idTags n ch = .ok l → ∀ ti ∈ l, ti.type = "D" ∨ ti.type = "R" := by
  intro h ti hti
  unfold idTags at h
  cases hv : determineTagType n ch <;> rw [hv] at h
  case D =>
    cases hs : selectorTags n.name ch with
    | error e => rw [hs] at h; simp [Except.map] at h
    | ok l2 =>
      rw [hs] at h
      have h2 : (Except.ok (ownTagInfo n Verdict.D :: l2) :
          Except JSError (List TagInfo)) = .ok l := h
      cases h2
      rcases List.mem_cons.mp hti with h1 | h2
      · subst h1; left; rfl
      · right; exact selectorTags_all_R n.name ch l2 hs ti h2
  case R =>
    cases hs : selectorTags n.name ch with
    | error e => rw [hs] at h; simp [Except.map] at h
    | ok l2 =>
      rw [hs] at h
      have h2 : (Except.ok (ownTagInfo n Verdict.R :: l2) :
          Except JSError (List TagInfo)) = .ok l := h
      cases h2
      rcases List.mem_cons.mp hti with h1 | h2
      · subst h1; right; rfl
      · right; exact selectorTags_all_R n.name ch l2 hs ti h2
  case N =>
    right; exact selectorTags_all_R n.name ch l h ti hti
  case U =>
    cases h; simp at hti

theorem streamOf_all_DR :
    ∀ (ids : List (Node × Chain)) (L : List TagInfo),
      streamOf ids = .ok L → ∀ ti ∈ L, ti.type = "D" ∨ ti.type = "R" := by
  intro ids
  induction ids with
  | nil => intro L h ti hti; cases h; simp at hti
  | cons p rest ih =>
    intro L h ti hti
    obtain ⟨n, ch⟩ := p
    unfold streamOf at h
    split at h
    · simp at h
    · rename_i l h1
      split at h
      · simp at h
      · rename_i r h2
        cases h
        rcases List.mem_append.mp hti with hm | hm
        · exact idTags_all_DR n ch l h1 ti hm
        · exact ih r h2 ti hm

theorem streamOf_ok_mem :
    ∀ (ids : List (Node × Chain)) (L : List TagInfo),
      streamOf ids = .ok L → ∀ n ch, (n, ch) ∈ ids →
        ∃ l, idTags n ch = .ok l ∧ ∀ ti ∈ l, ti ∈ L := by
  intro ids
  induction ids with
  | nil => intro L h n ch hm; simp at hm
  | cons p rest ih =>
    intro L h n ch hm
    obtain ⟨n0, ch0⟩ := p
    unfold streamOf at h
    split at h
    · simp at h
    · rename_i l h1
      split at h
      · simp at h
      · rename_i r h2
        cases h
        rcases List.mem_cons.mp hm with hm1 | hm2
        · have he1 : n = n0 := congrArg Prod.fst hm1
          have he2 : ch = ch0 := congrArg Prod.snd hm1
          refine ⟨l, ?_, ?_⟩
          · rw [he1, he2]; exact h1
          · intro ti hti; exact List.mem_append.mpr (Or.inl hti)
        · obtain ⟨l2, hl2, hsub⟩ := ih r h2 n ch hm2
          exact ⟨l2, hl2, fun ti hti => List.mem_append.mpr (Or.inr (hsub ti hti))⟩

theorem streamOf_err :
    ∀ (ids : List (Node × Chain)) (n : Node) (ch : Chain) (e : JSError),
      (n, ch) ∈ ids → idTags n ch = .error e →
      ∃ e2, streamOf ids = .error e2 := by
  intro ids
  induction ids with
  | nil => intro n ch e hm _; simp at hm
  | cons p rest ih =>
    intro n ch e hm herr
    obtain ⟨n0, ch0⟩ := p
    unfold streamOf
    cases h1 : idTags n0 ch0 with
    | error e0 => exact ⟨e0, rfl⟩
    | ok l =>
      rcases List.mem_cons.mp hm with hm1 | hm2
      · have he1 : n = n0 := congrArg Prod.fst hm1
        have he2 : ch = ch0 := congrArg Prod.snd hm1
        rw [he1, he2, h1] at herr
        simp at herr
      · obtain ⟨e2, he2⟩ := ih n ch e hm2 herr
        rw [he2]
        exact ⟨e2, rfl⟩

theorem tagJavaScript_tags_inv (root : Node) (pm : Except SynError Node)
    (src path : String) (lo co : Nat) (ts : List Tag) :
    tagJavaScript (.ok root) pm src path lo co = .tags ts →
    tagAST root src path lo co = .ok ts := by
  intro h
  unfold tagJavaScript at h
  by_cases hg : src = "" ∨ path = ""
  · rw [if_pos hg] at h; simp at h
  · rw [if_neg hg] at h
    unfold tagAfterParse parseJS at h
    have h2 : (match tagAST root src path lo co with
      | Except.ok l => TagResult.tags l
      | Except.error e => TagResult.thrown e) = TagResult.tags ts := h
    split at h2
    · rename_i l ht; cases h2; exact ht
    · simp at h2

theorem determineTagType_member_prop (idn m : Node) (rest : Chain)
    (h1 : idn.ty = "Identifier") (h2 : m.ty = "MemberExpression") :
    determineTagType idn (.nodeC m "property" :: rest) = .R := by
  obtain ⟨t1, l1, n1, v1, s1, p1⟩ := idn
  obtain ⟨t2, l2, n2, v2, s2, p2⟩ := m
  simp only [Node.ty] at h1 h2
  subst h1; subst h2
  rfl

theorem selectorTags_trigger (nm : String) (m : Node) (q : String) (rest : Chain)
    (h1 : selectorNames.contains nm = true) (h2 : m.ty = "MemberExpression") :
    selectorTags nm (.nodeC m q :: rest) = selWalk nm m rest := by
  have h0 : selectorTags nm (.nodeC m q :: rest) =
      if selectorNames.contains nm ∧ m.ty = "MemberExpression" then selWalk nm m rest
      else .ok [] := rfl
  rw [h0, if_pos ⟨h1, h2⟩]

theorem selWalk_err_of_empty_args :
    ∀ (chain : Chain) (cur : Node) (nm : String) (c : Node),
      walkStop cur chain = some c → c.ty = "CallExpression" →
      getArr c "arguments" = some [] →
      selWalk nm cur chain = .error (.typeError "Cannot read property type of undefined") := by
  intro chain
  induction chain with
  | nil =>
    intro cur nm c hw hty hargs
    unfold walkStop at hw
    unfold selWalk
    by_cases h1 : cur.ty = "MemberExpression"
    · rw [if_pos h1] at hw; simp at hw
    · rw [if_neg h1] at hw
      cases hw
      rw [if_neg h1]
      unfold selAtCall
      rw [if_pos hty, hargs]
  | cons entry rest ih =>
    intro cur nm c hw hty hargs
    unfold walkStop at hw
    unfold selWalk
    by_cases h1 : cur.ty = "MemberExpression"
    · rw [if_pos h1] at hw ⊢
      cases entry with
      | nodeC n p => exact ih n nm c hw hty hargs
      | arrC idx => simp at hw
    · rw [if_neg h1] at hw ⊢
      cases hw
      unfold selAtCall
      rw [if_pos hty, hargs]

theorem idTags_err_of_R (idn : Node) (ch : Chain) (e : JSError)
    (hv : determineTagType idn ch = .R) (hs : selectorTags idn.name ch = .error e) :
    idTags idn ch = .error e := by
  unfold idTags
  rw [hv, hs]
  rfl

theorem tagAST_err (root : Node) (src path : String) (lo co : Nat) (e : JSError)
    (h : streamOf (identifiersOf root) = .error e) :
    tagAST root src path lo co = .error e := by
  unfold tagAST
  rw [h]
  rfl

theorem tagJavaScript_thrown_of_err (root : Node) (pm : Except SynError Node)
    (src path : String) (lo co : Nat) (e : JSError)
    (hs : src ≠ "") (hp : path ≠ "")
    (h : tagAST root src path lo co = .error e) :
    tagJavaScript (.ok root) pm src path lo co = .thrown e := by
  unfold tagJavaScript
  rw [if_neg (by tauto : ¬(src = "" ∨ path = ""))]
  have h2 : (match tagAST root src path lo co with
    | Except.ok l => TagResult.tags l
    | Except.error e2 => TagResult.thrown e2) = TagResult.thrown e := by rw [h]
  exact h2

theorem ancScan_eq_nearest :
    ∀ (chain : Chain) (ty : String),
      ancScan chain ty = nearestAncestorOfKind chain ty := by
  intro chain
  induction chain with
  | nil => intro ty; rfl
  | cons e rest ih =>
    intro ty
    cases e with
    | arrC idx =>
      show ancScan rest ty = nearestAncestorOfKind rest ty
      exact ih ty
    | nodeC n p =>
      show (if n.ty = ty then some (n, p) else ancScan rest ty) =
        (if n.ty = ty then some (n, p) else nearestAncestorOfKind rest ty)
      rw [ih ty]

/-
Claim theorems.
-/

/-- C1: for every Identifier occurrence of a decorated tree the classifier
yields exactly one of the four verdicts Definition, Reference, Ignore
(NOTHING) or Unknown (the undefined fall-through), and a tag stream
returned by tagJavaScript contains the tag of the occurrence itself exactly
when the verdict is Definition or Reference; every tag of the stream has
kind D or R, so an Ignore or Unknown occurrence never contributes its own
tag. -/
theorem c1_classifier_verdicts_and_stream :
    ∀ (root : Node) (pm : Except SynError Node) (src path : String)
      (lo co : Nat) (ts : List Tag),
      tagJavaScript (.ok root) pm src path lo co = .tags ts →
      (∀ t ∈ ts, t.type = "D" ∨ t.type = "R") ∧
      (∀ idn ch, (idn, ch) ∈ identifiersOf root →
        (determineTagType idn ch = .D ∨ determineTagType idn ch = .R ∨
         determineTagType idn ch = .N ∨ determineTagType idn ch = .U) ∧
        (tagOfInfo src path lo co (ownTagInfo idn (determineTagType idn ch)) ∈ ts ↔
          (determineTagType idn ch = .D ∨ determineTagType idn ch = .R))) := by
  intro root pm src path lo co ts h
  have hast := tagJavaScript_tags_inv root pm src path lo co ts h
  unfold tagAST at hast
  cases hstream : streamOf (identifiersOf root) with
  | error e => rw [hstream] at hast; simp [Except.map] at hast
  | ok L =>
    rw [hstream] at hast
    have hts : ts = L.map (tagOfInfo src path lo co) := by
      have h2 : (Except.ok (L.map (tagOfInfo src path lo co)) :
          Except JSError (List Tag)) = .ok ts := hast
      cases h2; rfl
    have hall : ∀ t ∈ ts, t.type = "D" ∨ t.type = "R" := by
      intro t ht
      rw [hts] at ht
      obtain ⟨ti, hti, hfeq⟩ := List.mem_map.mp ht
      have he : t.type = ti.type := by rw [← hfeq]; exact rfl
      rw [he]
      exact streamOf_all_DR _ _ hstream ti hti
    refine ⟨hall, ?_⟩
    intro idn ch hmem
    refine ⟨?_, ?_, ?_⟩
    · cases hv : determineTagType idn ch
      case D => exact Or.inl rfl
      case R => exact Or.inr (Or.inl rfl)
      case N => exact Or.inr (Or.inr (Or.inl rfl))
      case U => exact Or.inr (Or.inr (Or.inr rfl))
    · intro hmemTag
      have hd := hall _ hmemTag
      have he : (tagOfInfo src path lo co
          (ownTagInfo idn (determineTagType idn ch))).type =
          vdStr (determineTagType idn ch) := rfl
      rw [he] at hd
      cases hv : determineTagType idn ch
      case D => exact Or.inl rfl
      case R => exact Or.inr rfl
      case N => rw [hv] at hd; exact absurd hd (by decide)
      case U => rw [hv] at hd; exact absurd hd (by decide)
    · intro hDR
      obtain ⟨l, hidt, hsub⟩ := streamOf_ok_mem _ _ hstream idn ch hmem
      have hown : ownTagInfo idn (determineTagType idn ch) ∈ l := by
        unfold idTags at hidt
        rcases hDR with hv | hv
        · rw [hv]
          rw [hv] at hidt
          cases hs : selectorTags idn.name ch with
          | error e => rw [hs] at hidt; simp [Except.map] at hidt
          | ok l2 =>
            rw [hs] at hidt
            have h2 : (Except.ok (ownTagInfo idn Verdict.D :: l2) :
                Except JSError (List TagInfo)) = .ok l := hidt
            cases h2
            exact List.mem_cons_self _ _
        · rw [hv]
          rw [hv] at hidt
          cases hs : selectorTags idn.name ch with
          | error e => rw [hs] at hidt; simp [Except.map] at hidt
          | ok l2 =>
            rw [hs] at hidt
            have h2 : (Except.ok (ownTagInfo idn Verdict.R :: l2) :
                Except JSError (List TagInfo)) = .ok l := hidt
            cases h2
            exact List.mem_cons_self _ _
      rw [hts]
      exact List.mem_map_of_mem _ (hsub _ hown)

/-- Witness for C1 at the scenario D tree: the hypothesis holds with a
computed stream, and the conclusions are obtained by applying the theorem. -/
theorem c1_witness :
    (∀ t ∈ [arrTagD, iTagD], t.type = "D" ∨ t.type = "R") ∧
    (∀ idn ch, (idn, ch) ∈ identifiersOf treeD →
      (determineTagType idn ch = .D ∨ determineTagType idn ch = .R ∨
       determineTagType idn ch = .N ∨ determineTagType idn ch = .U) ∧
      (tagOfInfo srcD "loop.js" 0 0
          (ownTagInfo idn (determineTagType idn ch)) ∈ [arrTagD, iTagD] ↔
        (determineTagType idn ch = .D ∨ determineTagType idn ch = .R))) :=
  c1_classifier_verdicts_and_stream treeD pdFail srcD "loop.js" 0 0
    [arrTagD, iTagD] (by rfl)

/-- C2: on the scenario-A source the stream holds exactly one tag named
foo, but its kind is D, not the claimed R: the classifier has no
require-path rule, VariableDeclarator.id with no enclosing loop is an
unconditional Definition. The repository test expects R, so this is a
divergence of the code from its own test suite. -/
theorem c2_require_same_name_eval :
    ∀ pm : Except SynError Node,
      tagJavaScript (.ok treeA) pm srcA "foo.js" 0 0 = .tags [fooTagA, requireTagA] ∧
      [fooTagA, requireTagA].filter (fun t => t.name == "foo") = [fooTagA] ∧
      fooTagA.type = "D" ∧ ¬fooTagA.type = "R" := by
  intro pm
  exact ⟨rfl, rfl, rfl, by decide⟩

/-- C3: on the scenario-D source no occurrence of i in the for-statement
header is tagged; the only tag named i is a Reference for the body
occurrence (line 1, 1-based column 36). -/
theorem c3_loop_header_suppression :
    ∀ pm : Except SynError Node,
      tagJavaScript (.ok treeD) pm srcD "loop.js" 0 0 = .tags [arrTagD, iTagD] ∧
      [arrTagD, iTagD].filter (fun t => t.name == "i") = [iTagD] ∧
      iTagD = { type := "R", name := "i", path := "loop.js", line := 1,
                column := 36, ref := some srcD } := by
  intro pm
  exact ⟨rfl, rfl, rfl⟩

/-- C4: on the scenario-E source the stream holds a Reference tag for
querySelector and a Reference tag for login-button with the hash stripped,
located inside the string literal: its column is the literal start column
23 plus the token offset 0 inside the literal, plus one for the quote and
one for the hash prefix, plus the global one-based shift applied to every
tag. -/
theorem c4_selector_literal_tags :
    ∀ pm : Except SynError Node,
      tagJavaScript (.ok treeE) pm srcE "sel.js" 0 0 =
        .tags [documentTagE, qsTagE, loginTagE, focusTagE] ∧
      qsTagE.type = "R" ∧ qsTagE.name = "querySelector" ∧
      loginTagE = { type := "R", name := "login-button", path := "sel.js",
                    line := 1, column := 23 + 0 + 1 + 1 + 1, ref := some srcE } := by
  intro pm
  exact ⟨rfl, rfl, rfl, rfl⟩

/-- C5: an empty source or an empty path is rejected with a TypeError
before the parse oracles are consulted; with both non-empty the guard
passes and control reaches the parse-and-tag stage. -/
theorem c5_precondition_guard :
    ∀ (pd pm : Except SynError Node) (src path : String) (lo co : Nat),
      (src = "" ∨ path = "" →
        tagJavaScript pd pm src path lo co =
          .thrown (.typeError "Source code and its path must be given.")) ∧
      (src ≠ "" → path ≠ "" →
        tagJavaScript pd pm src path lo co = tagAfterParse pd pm src path lo co) := by
  intro pd pm src path lo co
  constructor
  · intro h; unfold tagJavaScript; rw [if_pos h]
  · intro hs hp; unfold tagJavaScript; rw [if_neg (by tauto)]

/-- Witness for C5 at concrete inputs. -/
theorem c5_witness :
    tagJavaScript (.ok treeA) (.ok treeA) "" "foo.js" 0 0 =
      .thrown (.typeError "Source code and its path must be given.") ∧
    tagJavaScript (.ok treeA) (.ok treeA) srcA "" 0 0 =
      .thrown (.typeError "Source code and its path must be given.") ∧
    tagJavaScript (.ok treeA) (.ok treeA) srcA "foo.js" 0 0 =
      tagAfterParse (.ok treeA) (.ok treeA) srcA "foo.js" 0 0 :=
  ⟨(c5_precondition_guard (.ok treeA) (.ok treeA) "" "foo.js" 0 0).1 (Or.inl rfl),
   (c5_precondition_guard (.ok treeA) (.ok treeA) srcA "" 0 0).1 (Or.inr rfl),
   (c5_precondition_guard (.ok treeA) (.ok treeA) srcA "foo.js" 0 0).2
     (by decide) (by decide)⟩

/-- C6 counterexample: when both parse attempts fail, the call does not
surface any failure value to the caller; it terminates the process with
exit code 10. -/
theorem c6_counterexample :
    tagJavaScript pdFail pdFail ";" "a.js" 0 0 = .exited 10 ∧
    isThrown (tagJavaScript pdFail pdFail ";" "a.js" 0 0) = false :=
  ⟨rfl, rfl⟩

/-- C6 amended: a source invalid under both grammars makes tagJavaScript
print a parse-error diagnostic and terminate the whole process with exit code
10, for any offsets and any non-empty source and path; nothing is
surfaced to the caller and the exit is fatal to the entire batch. -/
theorem c6_amended_double_failure_exits :
    ∀ (e1 e2 : SynError) (src path : String) (lo co : Nat),
      src ≠ "" → path ≠ "" →
      tagJavaScript (.error e1) (.error e2) src path lo co = .exited 10 := by
  intro e1 e2 src path lo co hs hp
  unfold tagJavaScript
  rw [if_neg (by tauto)]
  rfl

/-- Witness for the amended C6. -/
theorem c6_amended_witness :
    tagJavaScript (.error ⟨3, "Invalid regular expression"⟩)
      (.error ⟨3, "Invalid regular expression"⟩) "(" "b.js" 2 4 = .exited 10 :=
  c6_amended_double_failure_exits ⟨3, "Invalid regular expression"⟩
    ⟨3, "Invalid regular expression"⟩ "(" "b.js" 2 4 (by decide) (by decide)

/-- C7: when the default-grammar attempt fails and the module-mode retry
succeeds, the retried tree is returned without decoration (decorateAST is
called only in the try branch), so tagging throws a TypeError instead of
returning the stream; the same tree is tagged normally when the default
attempt succeeds. -/
theorem c7_retry_undecorated_eval :
    tagJavaScript pdFail (.ok treeA) srcA "foo.js" 0 0 =
      .thrown (.typeError "ast.descendants is not a function") ∧
    tagJavaScript (.ok treeA) pdFail srcA "foo.js" 0 0 =
      .tags [fooTagA, requireTagA] :=
  ⟨rfl, rfl⟩

/-- C8 counterexample: a decorated occurrence whose verdict is the
undefined fall-through, attached to a MemberExpression inside a selector
call with a literal argument. The emitter returns before the trigger
check, so it emits nothing, while the spec-modelled step that always runs
the trigger check emits a literal-derived Reference tag. -/
theorem c8_counterexample :
    determineTagType wIdent wChain = .U ∧
    idTags wIdent wChain = .ok [] ∧
    specIdTags wIdent wChain =
      .ok [{ type := "R", name := "a", line := 1, column := 10 }] :=
  ⟨rfl, rfl, rfl⟩

/-- C8 amended: the literal-scanner trigger check runs for the Definition,
Reference and Ignore outcomes - on those the emitter step agrees with the
spec-modelled step that always runs the check - but an Unknown outcome
returns before the check and emits nothing. -/
theorem c8_amended_trigger_scope :
    ∀ (n : Node) (ch : Chain),
      (determineTagType n ch ≠ .U → idTags n ch = specIdTags n ch) ∧
      (determineTagType n ch = .U → idTags n ch = .ok []) := by
  intro n ch
  constructor
  · intro h
    unfold idTags specIdTags
    cases hv : determineTagType n ch
    case D => rfl
    case R => rfl
    case N => rfl
    case U => exact absurd hv h
  · intro h
    unfold idTags
    rw [h]

/-- Witness for the amended C8 at the querySelector occurrence of the
scenario-E tree. -/
theorem c8_amended_witness :
    idTags qsIdE qsChainE = specIdTags qsIdE qsChainE ∧
    idTags wIdent wChain = .ok [] :=
  ⟨(c8_amended_trigger_scope qsIdE qsChainE).1 (by decide),
   (c8_amended_trigger_scope wIdent wChain).2 (by rfl)⟩

/-- C9 counterexample: the foo occurrence of the scenario-A tree sits
directly (not through an array) in a VariableDeclarator, yet the lookup
returns not-found for that kind, while the spec-modelled nearest-ancestor
lookup returns the immediate parent: the immediate non-array parent is not
a candidate of astGetAncestorNode. -/
theorem c9_counterexample :
    (identifiersOf treeA).head? = some (fooIdA, fooChainA) ∧
    fooChainA.head? = some (.nodeC declrA "id") ∧
    declrA.ty = "VariableDeclarator" ∧
    astGetAncestorNode fooChainA "VariableDeclarator" = none ∧
    nearestAncestorOfKind fooChainA "VariableDeclarator" = some (declrA, "id") :=
  ⟨rfl, rfl, rfl, rfl, rfl⟩

/-- C9 amended: the lookup scans the chain strictly above the first
container link, so it equals the spec-modelled nearest-ancestor lookup of
the chain tail; the two agree whenever the first link is an array wrapper
or a node of a different kind, and disagree exactly when the immediate
non-array parent is of the sought kind, which the spec lookup returns and
the code lookup skips. -/
theorem c9_amended_ancestor_lookup :
    ∀ (e : CEntry) (rest : Chain) (ty : String),
      astGetAncestorNode (e :: rest) ty = nearestAncestorOfKind rest ty ∧
      (∀ idx, e = .arrC idx →
        nearestAncestorOfKind (e :: rest) ty = nearestAncestorOfKind rest ty) ∧
      (∀ n p, e = .nodeC n p → n.ty ≠ ty →
        nearestAncestorOfKind (e :: rest) ty = nearestAncestorOfKind rest ty) ∧
      (∀ n p, e = .nodeC n p → n.ty = ty →
        nearestAncestorOfKind (e :: rest) ty = some (n, p)) := by
  intro e rest ty
  refine ⟨?_, ?_, ?_, ?_⟩
  · show ancScan rest ty = nearestAncestorOfKind rest ty
    exact ancScan_eq_nearest rest ty
  · intro idx he
    subst he
    rfl
  · intro n p he hne
    subst he
    show (if n.ty = ty then some (n, p) else nearestAncestorOfKind rest ty) = _
    rw [if_neg hne]
  · intro n p he hty2
    subst he
    show (if n.ty = ty then some (n, p) else nearestAncestorOfKind rest ty) = some (n, p)
    rw [if_pos hty2]

/-- Witness for the amended C9 at the foo occurrence chain. -/
theorem c9_amended_witness :
    astGetAncestorNode (CEntry.nodeC declrA "id" :: fooRestA) "VariableDeclarator" =
      nearestAncestorOfKind fooRestA "VariableDeclarator" ∧
    nearestAncestorOfKind (CEntry.nodeC declrA "id" :: fooRestA) "VariableDeclarator" =
      some (declrA, "id") :=
  ⟨(c9_amended_ancestor_lookup (.nodeC declrA "id") fooRestA "VariableDeclarator").1,
   (c9_amended_ancestor_lookup (.nodeC declrA "id") fooRestA "VariableDeclarator").2.2.2
     declrA "id" rfl rfl⟩

/-- C10: any tree containing a call of one of the five selector names
through a member expression with an empty argument list makes the tagging
pipeline throw a TypeError (the trigger check reads the type of the absent
first argument), rather than skipping and returning a stream. -/
theorem c10_empty_selector_arguments_throw :
    ∀ (root : Node) (pm : Except SynError Node) (src path : String) (lo co : Nat),
      src ≠ "" → path ≠ "" →
      (∃ p ∈ identifiersOf root, ∃ m rest c,
        p.1.ty = "Identifier" ∧
        p.2 = CEntry.nodeC m "property" :: rest ∧
        selectorNames.contains p.1.name = true ∧
        m.ty = "MemberExpression" ∧
        walkStop m rest = some c ∧
        c.ty = "CallExpression" ∧
        getArr c "arguments" = some []) →
      isThrown (tagJavaScript (.ok root) pm src path lo co) = true := by
  intro root pm src path lo co hs hp hex
  obtain ⟨p, hmem, m, rest, c, hidty, hch, hname, hmty, hwalk, hcty, hargs⟩ := hex
  obtain ⟨idn, ch⟩ := p
  have hch2 : ch = CEntry.nodeC m "property" :: rest := hch
  subst hch2
  have hidty2 : idn.ty = "Identifier" := hidty
  have hname2 : selectorNames.contains idn.name = true := hname
  have hvd := determineTagType_member_prop idn m rest hidty2 hmty
  have hsel : selectorTags idn.name (CEntry.nodeC m "property" :: rest) =
      .error (.typeError "Cannot read property type of undefined") := by
    rw [selectorTags_trigger idn.name m "property" rest hname2 hmty]
    exact selWalk_err_of_empty_args rest m idn.name c hwalk hcty hargs
  have hid := idTags_err_of_R idn (CEntry.nodeC m "property" :: rest) _ hvd hsel
  obtain ⟨e2, hstr⟩ := streamOf_err _ idn _ _ hmem hid
  have hast := tagAST_err root src path lo co e2 hstr
  rw [tagJavaScript_thrown_of_err root pm src path lo co e2 hs hp hast]
  rfl

/-- Witness for C10 at the empty-argument getElementById tree. -/
theorem c10_witness :
    isThrown (tagJavaScript (.ok treeX) pdFail srcX "x.js" 0 0) = true :=
  c10_empty_selector_arguments_throw treeX pdFail srcX "x.js" 0 0
    (by decide) (by decide)
    ⟨(geIdX, geChainX),
     (by
       have h : identifiersOf treeX =
           [(identN "x" 1 0, [.nodeC memX "object", .nodeC callX "callee",
             .nodeC exprStmtX "expression", .arrC "0", .nodeC treeX "body"]),
            (geIdX, geChainX)] := rfl
       rw [h]
       exact List.Mem.tail _ (List.Mem.head _)),
     memX, geRestX, callX, rfl, rfl, rfl, rfl, rfl, rfl, rfl⟩

end GlobalExt
